import Mathlib

/-!
Verification development for the Voice ASR core: shallow embedding of the
frame handling in `src/app/main/asr/asr-client.ts`, the session state machine
in `src/app/main/asr/asr-manager.ts`, the numeric audio conversions in
`src/app/main/asr/audio-processor.ts`, and the rewrite service in
`src/app/main/rewrite/index.ts`, together with theorems about the
behaviour those files implement.

Machine integers are modelled as `Nat`/`Int` with explicit wrap-around where
the code stores into typed arrays; JavaScript floating-point arithmetic in
the audio conversions is modelled over `ℚ` with explicit IEEE-754
round-to-nearest-even rounding at double precision for each arithmetic
step and at single precision for each `Float32Array` store, plus clamping
and truncation-toward-zero for the `Int16Array` store; callbacks are
modelled as the ordered list of invocations an operation performs; thrown
exceptions are modelled with `Except`.  External effects (gzip, UTF-8
decoding, JSON parsing, the network) are oracle parameters.
-/

namespace Voice

/-! ## Bytes and big-endian 32-bit reads (DataView semantics) -/

/-- A byte string, each entry a byte value. -/
abbrev Bytes := List Nat

/-- `data[i]` on a `Uint8Array` (only consulted after a length check). -/
def byteAt (data : Bytes) (i : Nat) : Nat := data.getD i 0

/-- `new DataView(buf).getUint32(0, false)`: big-endian; `none` models the
`RangeError` thrown when fewer than 4 bytes remain. -/
def readUInt32BE : Bytes → Option Nat
  | b0 :: b1 :: b2 :: b3 :: _ => some (((b0 * 256 + b1) * 256 + b2) * 256 + b3)
  | _ => none

/-- `new DataView(buf).getInt32(0, false)`: big-endian two's complement. -/
def readInt32BE (data : Bytes) : Option Int :=
  match readUInt32BE data with
  | none => none
  | some u => some (if u < 2 ^ 31 then (u : Int) else (u : Int) - 2 ^ 32)

/-- Big-endian 4-byte encoding of a 32-bit unsigned value (`setUint32`). -/
def be32 (n : Nat) : Bytes :=
  [n / 2 ^ 24 % 256, n / 2 ^ 16 % 256, n / 2 ^ 8 % 256, n % 256]

/-- Big-endian 4-byte encoding of a 32-bit signed value (`setInt32`). -/
def int32be (i : Int) : Bytes := be32 (i % 2 ^ 32).toNat

/-! ## Shared types (`src/app/shared/types/asr.ts`) -/

/-- `ASRState` from `src/app/shared/types/asr.ts`. -/
inductive ASRState
  | idle
  | connecting
  | ready
  | recording
  | processing
  | completed
  | error
deriving DecidableEq, Repr

/-- The state label as it appears interpolated in error messages. -/
def ASRState.label : ASRState → String
  | .idle => "idle"
  | .connecting => "connecting"
  | .ready => "ready"
  | .recording => "recording"
  | .processing => "processing"
  | .completed => "completed"
  | .error => "error"

/-- `ASRUtterance` from the shared types; the time fields are `Option` because
the upstream JSON may omit them (`u.start_time || u.startTime` can be
`undefined`). -/
structure ASRUtterance where
  text : String
  startTime : Option Int
  endTime : Option Int
  definite : Option Bool
deriving DecidableEq, Repr

/-- `ASRResult` from the shared types. -/
structure ASRResult where
  text : String
  isPartial : Bool
  utterances : Option (List ASRUtterance) := none
  error : Option String := none
deriving DecidableEq, Repr

/-! ## Audio processor (`src/app/main/asr/audio-processor.ts`)

Sample values are modelled over `ℚ` together with the floating-point
roundings the code performs: the division in `int16ToFloat32` is computed
in double precision and its quotient is then stored into a `Float32Array`
(a second rounding, to single precision); the multiplication in
`float32ToInt16` is computed in double precision (its operand, read back
from a `Float32Array`, is exactly representable in double precision);
`Math.min`/`Math.max` are exact.  The `Int16Array` element store applies
JavaScript's truncation-toward-zero followed by a 16-bit two's-complement
wrap.  The rounding model is round-to-nearest ties-to-even without
overflow or subnormal handling, which coincides with IEEE-754 for the
magnitudes these conversions produce (every nonzero intermediate lies well
inside the normal range of both formats). -/

/-- Round `q` to the nearest integer multiple of `ulp`, ties to even
(the IEEE-754 default rounding direction). -/
def roundNearestEven (q ulp : ℚ) : ℚ :=
  let n := ⌊q / ulp⌋
  let frac := q / ulp - n
  if frac < 1 / 2 then n * ulp
  else if 1 / 2 < frac then (n + 1) * ulp
  else if n % 2 = 0 then n * ulp else (n + 1) * ulp

/-- IEEE-754 rounding of a real (rational) value to the binary format with
`prec` significand bits, round-to-nearest ties-to-even; overflow and
subnormals are not modelled (not reachable at the magnitudes used here). -/
def flRound (prec : Nat) (q : ℚ) : ℚ :=
  if q = 0 then 0
  else roundNearestEven q ((2 : ℚ) ^ (Int.log 2 |q| + 1 - (prec : Int)))

/-- Rounding to IEEE-754 double precision: one JavaScript arithmetic step. -/
def fl64 (q : ℚ) : ℚ := flRound 53 q

/-- Rounding to IEEE-754 single precision: a `Float32Array` element store. -/
def fl32 (q : ℚ) : ℚ := flRound 24 q

/-- Truncation toward zero (JavaScript ToIntegerOrInfinity on a finite value). -/
def jsTrunc (q : ℚ) : Int := if q < 0 then ⌈q⌉ else ⌊q⌋

/-- Storing a number into an `Int16Array` element: truncate, wrap to signed
16-bit. -/
def toInt16 (q : ℚ) : Int := (jsTrunc q + 32768) % 65536 - 32768

/-- The loop body of `float32ToInt16`:
`sample = Math.max(-1, Math.min(1, x)); sample < 0 ? sample * 0x8000 : sample * 0x7fff`
— the clamp is exact, the product is a double-precision multiplication,
the assignment truncates into the `Int16Array`. -/
def float32ToInt16Sample (x : ℚ) : Int :=
  let sample := max (-1) (min 1 x)
  toInt16 (fl64 (if sample < 0 then sample * 0x8000 else sample * 0x7fff))

/-- `float32ToInt16` as the per-element map over the input array. -/
def float32ToInt16 (xs : List ℚ) : List Int := xs.map float32ToInt16Sample

/-- The loop body of `int16ToFloat32`: `x < 0 ? x / 0x8000 : x / 0x7fff` —
a double-precision division whose result is stored into the
`Float32Array`, rounding it to single precision. -/
def int16ToFloat32Sample (x : Int) : ℚ :=
  fl32 (fl64 (if x < 0 then (x : ℚ) / 0x8000 else (x : ℚ) / 0x7fff))

/-- `int16ToFloat32` as the per-element map over the input array. -/
def int16ToFloat32 (xs : List Int) : List ℚ := xs.map int16ToFloat32Sample

/-! ## Protocol constants (`src/app/main/asr/asr-client.ts`) -/

/-- `ProtocolVersion.V1`. -/
def ProtocolVersion.V1 : Nat := 0b0001

/-- `MessageType.CLIENT_FULL_REQUEST`. -/
def MessageType.CLIENT_FULL_REQUEST : Nat := 0b0001

/-- `MessageType.CLIENT_AUDIO_ONLY_REQUEST`. -/
def MessageType.CLIENT_AUDIO_ONLY_REQUEST : Nat := 0b0010

/-- `MessageType.SERVER_FULL_RESPONSE`. -/
def MessageType.SERVER_FULL_RESPONSE : Nat := 0b1001

/-- `MessageType.SERVER_ERROR_RESPONSE`. -/
def MessageType.SERVER_ERROR_RESPONSE : Nat := 0b1111

/-- `MessageTypeSpecificFlags.NO_SEQUENCE`. -/
def Flags.NO_SEQUENCE : Nat := 0b0000

/-- `MessageTypeSpecificFlags.POS_SEQUENCE`. -/
def Flags.POS_SEQUENCE : Nat := 0b0001

/-- `MessageTypeSpecificFlags.NEG_SEQUENCE`. -/
def Flags.NEG_SEQUENCE : Nat := 0b0010

/-- `MessageTypeSpecificFlags.NEG_WITH_SEQUENCE`. -/
def Flags.NEG_WITH_SEQUENCE : Nat := 0b0011

/-- `SerializationType.NO_SERIALIZATION`. -/
def Serialization.NO_SERIALIZATION : Nat := 0b0000

/-- `SerializationType.JSON`. -/
def Serialization.JSON : Nat := 0b0001

/-- `CompressionType.NO_COMPRESSION`. -/
def Compression.NO_COMPRESSION : Nat := 0b0000

/-- `CompressionType.GZIP`. -/
def Compression.GZIP : Nat := 0b0001

/-! ## Protocol client state (`ASRClient`) -/

/-- `ConnectionState` from `asr-client.ts`. -/
inductive ConnectionState
  | disconnected
  | connecting
  | connected
  | closing
deriving DecidableEq, Repr

/-- The mutable fields of an `ASRClient` that the modelled operations touch:
connection phase, whether `this.ws` is non-null, the outbound audio
accumulator, and whether the periodic send timer is active. -/
structure ClientState where
  connectionState : ConnectionState
  wsPresent : Bool
  audioBuffer : List Bytes
  sendIntervalActive : Bool
deriving DecidableEq, Repr

/-- `get isConnected()`. -/
def ASRClient.isConnected (c : ClientState) : Bool :=
  c.connectionState = ConnectionState.connected

/-- One outbound frame, recorded before gzip: `sendAudioPacket` compresses
`audio` and frames it as header + big-endian length + compressed payload. -/
structure OutPacket where
  messageType : Nat
  flags : Nat
  serialization : Nat
  compression : Nat
  audio : Bytes
deriving DecidableEq, Repr

/-- `buildHeader`: 4-byte header `(version<<4)|1`, `(type<<4)|flags`,
`(serialization<<4)|compression`, reserved `0x00`. -/
def ASRClient.buildHeader (messageType flags serialization compression : Nat) : Bytes :=
  [ProtocolVersion.V1 * 16 + 1, messageType * 16 + flags, serialization * 16 + compression, 0x00]

/-- The wire bytes of an outbound packet, given a gzip oracle `gz`
(header, big-endian uint32 length of the compressed payload, payload). -/
def packetBytes (gz : Bytes → Bytes) (p : OutPacket) : Bytes :=
  ASRClient.buildHeader p.messageType p.flags p.serialization p.compression
    ++ be32 (gz p.audio).length ++ gz p.audio

/-- `stopAudioSender`: clears the periodic flush timer. -/
def ASRClient.stopAudioSender (c : ClientState) : ClientState :=
  { c with sendIntervalActive := false }

/-- `sendAudio`: warn-and-drop when not connected, otherwise push the chunk
onto the outbound accumulator. -/
def ASRClient.sendAudio (c : ClientState) (audioData : Bytes) : ClientState :=
  if ASRClient.isConnected c then { c with audioBuffer := c.audioBuffer ++ [audioData] } else c

/-- `mergeAudioBuffer`: concatenate all queued chunks in order and clear the
queue. -/
def ASRClient.mergeAudioBuffer (c : ClientState) : ClientState × Bytes :=
  ({ c with audioBuffer := [] }, c.audioBuffer.flatten)

/-- `sendAudioPacket(audioData, isLast)`: silently does nothing when `ws` is
null or the client is not connected; otherwise emits one `ClientAudioOnly`
frame, flags `NEG_SEQUENCE` iff last, serialization none, compression gzip. -/
def ASRClient.sendAudioPacket (c : ClientState) (audioData : Bytes) (isLast : Bool) : List OutPacket :=
  if c.wsPresent = false ∨ ASRClient.isConnected c = false then []
  else
    [{ messageType := MessageType.CLIENT_AUDIO_ONLY_REQUEST
       flags := if isLast then Flags.NEG_SEQUENCE else Flags.NO_SEQUENCE
       serialization := Serialization.NO_SERIALIZATION
       compression := Compression.GZIP
       audio := audioData }]

/-- `finish()`: stop the flush timer; if not connected, a silent no-op;
otherwise flush the queued audio (or an empty payload) as one last packet.
Returns the new client state and the packets sent. -/
def ASRClient.finish (c : ClientState) : ClientState × List OutPacket :=
  let c1 := ASRClient.stopAudioSender c
  if ASRClient.isConnected c1 = false then (c1, [])
  else if c1.audioBuffer.length > 0 then
    let merged := ASRClient.mergeAudioBuffer c1
    (merged.1, ASRClient.sendAudioPacket merged.1 merged.2 true)
  else
    (c1, ASRClient.sendAudioPacket c1 [] true)

/-- `close()`: stop the timer, drop the socket, clear the queue,
unconditionally end disconnected. -/
def ASRClient.close (c : ClientState) : ClientState :=
  { c with sendIntervalActive := false, wsPresent := false,
           connectionState := ConnectionState.disconnected, audioBuffer := [] }

/-! ## Inbound response handling (`ASRClient.handleResponse`)

The JSON payload is modelled by the fields the code actually reads; gzip,
UTF-8 decoding and `JSON.parse` are oracle parameters.  JavaScript
truthiness is modelled explicitly: `""` and `0` and `undefined` are falsy,
an object — including an empty array — is truthy. -/

/-- A raw utterance object as read from the server JSON
(`u.text`, `u.start_time`/`u.startTime`, `u.end_time`/`u.endTime`,
`u.definite`). -/
structure RawUtterance where
  text : String
  start_time : Option Int
  startTime : Option Int
  end_time : Option Int
  endTime : Option Int
  definite : Option Bool
deriving DecidableEq, Repr

/-- The `result` object of the server JSON: `result.text`,
`result.payload_msg?.result?.text` (collapsed to the string at that path),
and `result.utterances`. -/
structure InnerResult where
  text : Option String
  payloadMsgResultText : Option String
  utterances : Option (List RawUtterance)
deriving DecidableEq, Repr

/-- The parsed server JSON: `jsonData.payload_msg?.result` (collapsed to the
object at that path) and `jsonData.result`. -/
structure JsonData where
  payloadMsgResult : Option InnerResult
  result : Option InnerResult
deriving DecidableEq, Repr

/-- JavaScript `a || b` for a possibly-undefined string `a`
(`undefined` and `""` are falsy). -/
def jsStrOrElse (a : Option String) (b : String) : String :=
  match a with
  | some s => if s = "" then b else s
  | none => b

/-- JavaScript `a || b` for possibly-undefined numbers
(`undefined` and `0` are falsy). -/
def jsNumOrElse (a b : Option Int) : Option Int :=
  match a with
  | some v => if v = 0 then b else some v
  | none => b

/-- The mapping applied by `result.utterances?.map(...)`. -/
def mapUtterance (u : RawUtterance) : ASRUtterance :=
  { text := u.text
    startTime := jsNumOrElse u.start_time u.startTime
    endTime := jsNumOrElse u.end_time u.endTime
    definite := u.definite }

/-- The `text` extraction:
`result.text || result.payload_msg?.result?.text || (result.utterances && result.utterances.length > 0 ? result.utterances.map(u => u.text).join('') : "")`. -/
def extractText (r : InnerResult) : String :=
  jsStrOrElse r.text (jsStrOrElse r.payloadMsgResultText
    (match r.utterances with
     | some us => if 0 < us.length then String.join (us.map RawUtterance.text) else ""
     | none => ""))

/-- Failures `handleResponse` can throw (caught and logged by the message
listener): a `DataView` read past the end, a gzip failure, a JSON parse
failure. -/
inductive HandleErr
  | rangeErr
  | gunzipErr
  | parseErr
deriving DecidableEq, Repr

/-- The external effects used while decoding a frame. -/
structure Oracles where
  gunzip : Bytes → Option Bytes
  decodeUtf8 : Bytes → String
  parseJson : Bytes → Option JsonData

/-- `handleResponse(data)`: returns the ordered list of result-callback
invocations the frame produces, or the exception it throws. -/
def ASRClient.handleResponse (o : Oracles) (data : Bytes) : Except HandleErr (List ASRResult) :=
  if data.length < 4 then .ok []
  else
    let headerSize := byteAt data 0 % 16 * 4
    let messageType := byteAt data 1 / 16 % 16
    let messageFlags := byteAt data 1 % 16
    let compressionMethod := byteAt data 2 % 16
    let payload0 := data.drop headerSize
    let payload1 := if messageFlags % 2 = 1 then payload0.drop 4 else payload0
    let isLastPackage : Bool := messageFlags / 2 % 2 = 1
    if messageType = MessageType.SERVER_ERROR_RESPONSE then
      match readInt32BE payload1 with
      | none => .error HandleErr.rangeErr
      | some errorCode =>
        let payload2 := payload1.drop 8
        let errorMessageOpt : Option String :=
          if compressionMethod = Compression.GZIP then
            (o.gunzip payload2).map o.decodeUtf8
          else some (o.decodeUtf8 payload2)
        match errorMessageOpt with
        | none => .error HandleErr.gunzipErr
        | some errorMessage =>
          .ok [{ text := ""
                 isPartial := true
                 error := some ("错误码 " ++ toString errorCode ++ ": " ++ errorMessage) }]
    else if messageType = MessageType.SERVER_FULL_RESPONSE then
      match readUInt32BE payload1 with
      | none => .error HandleErr.rangeErr
      | some _payloadSize =>
        let payload2 := payload1.drop 4
        if payload2.length = 0 then .ok []
        else
          let plainOpt : Option Bytes :=
            if compressionMethod = Compression.GZIP then o.gunzip payload2 else some payload2
          match plainOpt with
          | none => .error HandleErr.gunzipErr
          | some plain =>
            match o.parseJson plain with
            | none => .error HandleErr.parseErr
            | some jsonData =>
              match jsonData.payloadMsgResult.orElse (fun _ => jsonData.result) with
              | none => .ok []
              | some r =>
                let text := extractText r
                let utterances := (InnerResult.utterances r).map (List.map mapUtterance)
                if text ≠ "" ∨ (InnerResult.utterances r).isSome then
                  .ok [{ text := text, isPartial := !isLastPackage, utterances := utterances }]
                else .ok []
    else .ok []

/-- A server full-response frame as the service emits it (mirrors the frame
layout built by `simulateServerResponse` in the repository's tests): header
with flags `POS_SEQUENCE` or `NEG_WITH_SEQUENCE`, 4-byte sequence, 4-byte
payload length, payload.  `gzipped` selects the compression bit. -/
def serverFullFrame (gzipped : Bool) (isLast : Bool) (seq : Int) (payload : Bytes) : Bytes :=
  [0x11, MessageType.SERVER_FULL_RESPONSE * 16 + (if isLast then Flags.NEG_WITH_SEQUENCE else Flags.POS_SEQUENCE),
   Serialization.JSON * 16 + (if gzipped then Compression.GZIP else Compression.NO_COMPRESSION), 0x00]
    ++ int32be seq ++ be32 payload.length ++ payload

/-- A server error frame (mirrors `simulateErrorResponse` in the
repository's tests): header with flags `POS_SEQUENCE`, 4-byte sequence,
4-byte signed error code, 4-byte message length, message bytes. -/
def serverErrorFrame (gzipped : Bool) (seq code : Int) (msg : Bytes) : Bytes :=
  [0x11, MessageType.SERVER_ERROR_RESPONSE * 16 + Flags.POS_SEQUENCE,
   Serialization.NO_SERIALIZATION * 16 + (if gzipped then Compression.GZIP else Compression.NO_COMPRESSION), 0x00]
    ++ int32be seq ++ int32be code ++ be32 msg.length ++ msg

/-! ## Session manager (`src/app/main/asr/asr-manager.ts`)

Wall-clock instants are `Nat` milliseconds; `crypto.randomUUID()` is a
string parameter; the polling loop in `waitForFinalResult` is modelled over
discrete 100ms ticks, with the values of `this.finalResult` and
`this.partialResults` as seen at tick `n` (they are mutated concurrently by
the transcription callback) given by the schedules `final` and `partials`. -/

/-- `ASRManagerConfig` after the constructor's defaulting
(`autoSaveHistory ?? true`, `maxHistorySize ?? 100`). -/
structure ASRManagerConfig where
  autoSaveHistory : Bool := true
  maxHistorySize : Nat := 100
deriving DecidableEq, Repr

/-- `TranscriptionHistoryEntry` from `asr-manager.ts`. -/
structure TranscriptionHistoryEntry where
  id : String
  text : String
  startTime : Nat
  endTime : Nat
  duration : Int
deriving DecidableEq, Repr

/-- The mutable fields of an `ASRManager`. -/
structure MgrState where
  config : ASRManagerConfig
  currentState : ASRState
  client : Option ClientState
  sessionStartTime : Option Nat
  partialResults : List ASRResult
  finalResult : Option ASRResult
  history : List TranscriptionHistoryEntry
deriving DecidableEq, Repr

/-- The errors the manager throws (all are plain `Error(message)` values in
the source; the constructors record the spec's taxonomy). -/
inductive MgrError
  | invalidState (msg : String)
  | connectFail (msg : String)
  | timeout (msg : String)
  | fuelExhausted
deriving DecidableEq, Repr

/-- A fresh `ASRClient` before `connect()` resolves. -/
def initialClient : ClientState :=
  { connectionState := ConnectionState.disconnected, wsPresent := false,
    audioBuffer := [], sendIntervalActive := false }

/-- An `ASRClient` right after `connect()` resolves: socket open, audio
sender timer started. -/
def connectedClient : ClientState :=
  { connectionState := ConnectionState.connected, wsPresent := true,
    audioBuffer := [], sendIntervalActive := true }

/-- `handleTranscriptionResult`: error results are only re-emitted as events;
partial results are appended; a non-partial result becomes the final result. -/
def ASRManager.handleTranscriptionResult (st : MgrState) (result : ASRResult) : MgrState :=
  if jsStrOrElse result.error "" ≠ "" then st
  else if ASRResult.isPartial result then
    { st with partialResults := st.partialResults ++ [result] }
  else { st with finalResult := some result }

/-- The history update inside `addToHistory`: `unshift`, then truncate from
the front when the length exceeds `maxHistorySize`. -/
def pushEntry (maxHistorySize : Nat) (entry : TranscriptionHistoryEntry)
    (history : List TranscriptionHistoryEntry) : List TranscriptionHistoryEntry :=
  let h := entry :: history
  if h.length > maxHistorySize then h.take maxHistorySize else h

/-- The entry `addToHistory` constructs: fresh id, the result text, the
session start, the end instant, their difference. -/
def sessionEntry (st : MgrState) (uid : String) (now : Nat) (result : ASRResult) :
    TranscriptionHistoryEntry :=
  { id := uid, text := result.text, startTime := st.sessionStartTime.getD 0, endTime := now,
    duration := (now : Int) - ((st.sessionStartTime.getD 0 : Nat) : Int) }

/-- `addToHistory(result)`: build the entry from the session bookkeeping and
push it. -/
def ASRManager.addToHistory (st : MgrState) (uid : String) (now : Nat) (result : ASRResult) : MgrState :=
  { st with history := pushEntry st.config.maxHistorySize (sessionEntry st uid now result) st.history }

/-- The history produced by a sequence of recorded sessions, oldest first:
each completed session applies the `addToHistory` history update to the
previous history, starting from an empty history. -/
def addedHistory (m : Nat) (es : List TranscriptionHistoryEntry) : List TranscriptionHistoryEntry :=
  es.foldl (fun h e => pushEntry m e h) []

/-- `cleanup()`: close and discard the client and the session start time. -/
def ASRManager.cleanup (st : MgrState) : MgrState :=
  { st with client := none, sessionStartTime := none }

/-- `startSession()`: guard on `idle`; reset the per-session buffers; create
a client and connect (`connectOk` is the outcome of the handshake). -/
def ASRManager.startSession (st : MgrState) (connectOk : Bool) (now : Nat) :
    MgrState × Except MgrError Unit :=
  if st.currentState ≠ ASRState.idle then
    (st, .error (MgrError.invalidState ("无法开始会话：当前状态为 " ++ st.currentState.label)))
  else
    let st1 := { st with
      currentState := ASRState.connecting
      sessionStartTime := some now
      partialResults := []
      finalResult := none
      client := some initialClient }
    if connectOk then
      ({ st1 with currentState := ASRState.ready, client := some connectedClient }, .ok ())
    else
      ({ st1 with currentState := ASRState.error }, .error (MgrError.connectFail ("WebSocket 连接失败")))

/-- What a call to the manager's `sendAudio` did. -/
inductive SendAudioOutcome
  | errored (e : MgrError)
  | dropped
  | forwarded
deriving DecidableEq, Repr

/-- `sendAudio(audioData)`: throw without a client; promote `ready` to
`recording`; outside `recording`, warn and drop; otherwise forward the chunk
to the client. -/
def ASRManager.sendAudio (st : MgrState) (audioData : Bytes) : MgrState × SendAudioOutcome :=
  match st.client with
  | none => (st, .errored (MgrError.invalidState ("会话未开始")))
  | some c =>
    let st1 := if st.currentState = ASRState.ready then
        { st with currentState := ASRState.recording } else st
    if st1.currentState ≠ ASRState.recording then (st1, .dropped)
    else ({ st1 with client := some (ASRClient.sendAudio c audioData) }, .forwarded)

/-- The polling loop of `waitForFinalResult`, one step per 100ms sleep:
at tick `n` the elapsed time is `100 * n`; first check `this.finalResult`,
then the timeout, then sleep.  `fuel` bounds the recursion and is chosen
large enough to be unreachable. -/
def waitFrom (timeoutMs : Nat) (final : Nat → Option ASRResult)
    (partials : Nat → List ASRResult) : Nat → Nat → Except MgrError ASRResult
  | 0, _ => .error MgrError.fuelExhausted
  | fuel + 1, n =>
    match final n with
    | some r => .ok r
    | none =>
      if 100 * n > timeoutMs then
        match (partials n).getLast? with
        | some lastPartial => .ok { lastPartial with isPartial := false }
        | none => .error (MgrError.timeout ("等待最终结果超时"))
      else waitFrom timeoutMs final partials fuel (n + 1)

/-- `waitForFinalResult(timeoutMs)`. -/
def ASRManager.waitForFinalResult (timeoutMs : Nat) (final : Nat → Option ASRResult)
    (partials : Nat → List ASRResult) : Except MgrError ASRResult :=
  waitFrom timeoutMs final partials (timeoutMs / 100 + 2) 0

/-- `stopSession()`: guard on an existing client and on `ready`/`recording`;
set `processing`; `finish()` the client; wait (5000ms budget) for the final
result; on success set `completed` and maybe record history; on failure set
`error`; always clean up. -/
def ASRManager.stopSession (st : MgrState) (uid : String) (now : Nat)
    (final : Nat → Option ASRResult) (partials : Nat → List ASRResult) :
    MgrState × Except MgrError ASRResult :=
  match st.client with
  | none => (st, .error (MgrError.invalidState ("会话未开始")))
  | some c =>
    if st.currentState ≠ ASRState.recording ∧ st.currentState ≠ ASRState.ready then
      (st, .error (MgrError.invalidState ("无法停止会话：当前状态为 " ++ st.currentState.label)))
    else
      let st1 := { st with
        currentState := ASRState.processing
        client := some (ASRClient.finish c).1 }
      match ASRManager.waitForFinalResult 5000 final partials with
      | .ok result =>
        let st2 := { st1 with currentState := ASRState.completed }
        let st3 := if st2.config.autoSaveHistory ∧ result.text ≠ "" then
            ASRManager.addToHistory st2 uid now result
          else st2
        (ASRManager.cleanup st3, .ok result)
      | .error e =>
        (ASRManager.cleanup { st1 with currentState := ASRState.error }, .error e)

/-- `cancelSession()`: close the client if any, clean up, reset to idle. -/
def ASRManager.cancelSession (st : MgrState) : MgrState :=
  let st1 := ASRManager.cleanup st
  { st1 with currentState := ASRState.idle }

/-- `clearHistory()`. -/
def ASRManager.clearHistory (st : MgrState) : MgrState := { st with history := [] }

/-! ## Rewrite service (`src/app/main/rewrite/index.ts`)

The network round trip is an oracle: either a response (with its `ok` flag,
status, and the string at `data.choices?.[0]?.message?.content`) or a thrown
exception. -/

/-- `RewriteConfig` after the constructor's defaulting. -/
structure RewriteConfig where
  apiUrl : String
  apiKey : String
  model : String
  temperature : ℚ := 0.3
  maxTokens : Nat := 4096

/-- `RewriteResult` from the shared types. -/
structure RewriteResult where
  original : String
  polished : String
  success : Bool
  error : Option String := none
deriving DecidableEq, Repr

/-- Outcome of the `fetch` round trip. -/
inductive NetOutcome
  | response (ok : Bool) (status : Nat) (content : Option String)
  | exn (msg : String)
deriving DecidableEq, Repr

/-- `text.trim()`: strip leading and trailing whitespace (spelled out over
the character list so that concrete instances evaluate). -/
def jsTrim (s : String) : String :=
  String.mk (((s.data.dropWhile Char.isWhitespace).reverse.dropWhile Char.isWhitespace).reverse)

/-- `RewriteService.rewrite(text)`: the returned pair is the result and
whether a network call was issued. -/
def RewriteService.rewrite (cfg : RewriteConfig) (text : String) (net : NetOutcome) :
    RewriteResult × Bool :=
  let trimmedText := jsTrim text
  if trimmedText = "" then
    ({ original := text, polished := "", success := true }, false)
  else if cfg.apiKey = "" then
    ({ original := text, polished := text, success := true }, false)
  else
    match net with
    | NetOutcome.exn msg =>
      ({ original := text, polished := text, success := false, error := some msg }, true)
    | NetOutcome.response ok status content =>
      if ok = false then
        ({ original := text, polished := text, success := false,
           error := some ("API 请求失败: " ++ toString status) }, true)
      else
        match content.map jsTrim with
        | none =>
          ({ original := text, polished := text, success := false,
             error := some ("API 返回空结果") }, true)
        | some polished =>
          if polished = "" then
            ({ original := text, polished := text, success := false,
               error := some ("API 返回空结果") }, true)
          else
            ({ original := text, polished := polished, success := true }, true)

/-! ## Concrete fixtures for witnesses and counterexamples -/

/-- A concrete partial result. -/
def sampleResult : ASRResult := { text := "你好", isPartial := true }

/-- A concrete final result. -/
def sampleFinal : ASRResult := { text := "你好世界", isPartial := false }

/-- A concrete manager state mid-recording, with one buffered partial result
and a buffered final result. -/
def sampleState : MgrState :=
  { config := {}
    currentState := ASRState.recording
    client := some connectedClient
    sessionStartTime := some 1000
    partialResults := [sampleResult]
    finalResult := some sampleFinal
    history := [] }

/-- A concrete idle manager state with stale result buffers. -/
def idleState : MgrState :=
  { config := {}
    currentState := ASRState.idle
    client := none
    sessionStartTime := none
    partialResults := [sampleResult]
    finalResult := some sampleFinal
    history := [] }

/-- The manager state produced by a successful `stopSession()` run on
`sampleState` (uid "id1", end instant 2000, final result delivered at the
first poll). -/
def stoppedState : MgrState :=
  { config := {}
    currentState := ASRState.completed
    client := none
    sessionStartTime := none
    partialResults := [sampleResult]
    finalResult := some sampleFinal
    history := [{ id := "id1", text := "你好世界", startTime := 1000, endTime := 2000, duration := 1000 }] }

/-- A concrete history entry. -/
def entryA : TranscriptionHistoryEntry :=
  { id := "a", text := "一", startTime := 0, endTime := 1, duration := 1 }

/-- A concrete history entry. -/
def entryB : TranscriptionHistoryEntry :=
  { id := "b", text := "二", startTime := 1, endTime := 2, duration := 1 }

/-- A concrete history entry. -/
def entryC : TranscriptionHistoryEntry :=
  { id := "c", text := "三", startTime := 2, endTime := 3, duration := 1 }

/-- Oracles for the server-error witness: UTF-8 decoding yields
"bad request". -/
def errOracles : Oracles :=
  { gunzip := fun _ => none
    decodeUtf8 := fun _ => "bad request"
    parseJson := fun _ => none }

/-- The parsed JSON for the C3 counterexample: a `result` object with no
`text` and an empty `utterances` array. -/
def emptyUttJson : JsonData :=
  { payloadMsgResult := none
    result := some { text := none, payloadMsgResultText := none, utterances := some [] } }

/-- Oracles for the empty-utterance-list counterexample. -/
def emptyUttOracles : Oracles :=
  { gunzip := fun _ => none
    decodeUtf8 := fun _ => ""
    parseJson := fun _ => some emptyUttJson }

/-- Oracles for the gzip-path witness: decompression succeeds, and the
decompressed bytes parse to the empty-utterance-list JSON. -/
def emptyUttGzOracles : Oracles :=
  { gunzip := fun _ => some [123]
    decodeUtf8 := fun _ => ""
    parseJson := fun _ => some emptyUttJson }

/-! ## Theorems -/

/-- Truncation toward zero is the identity on integer values. -/
theorem jsTrunc_intCast (x : Int) : jsTrunc (x : ℚ) = x := by
  unfold jsTrunc
  by_cases h : (x : ℚ) < 0
  · simp [h, Int.ceil_intCast]
  · simp [h, Int.floor_intCast]

/-- The `Int16Array` store is the identity on in-range integers. -/
theorem toInt16_intCast (x : Int) (h1 : -32768 ≤ x) (h2 : x ≤ 32767) :
    toInt16 (x : ℚ) = x := by
  unfold toInt16
  rw [jsTrunc_intCast]
  omega

/-- Rounding to the nearest multiple of `ulp` is the identity on exact
multiples. -/
theorem roundNearestEven_int (q ulp : ℚ) (hulp : ulp ≠ 0) (n : Int)
    (hn : q = (n : ℚ) * ulp) :
    roundNearestEven q ulp = q := by
  have ht : q / ulp = (n : ℚ) := by
    rw [hn, mul_div_assoc, div_self hulp, mul_one]
  unfold roundNearestEven
  rw [ht, Int.floor_intCast]
  norm_num
  exact hn.symm

/-- Rounding to the nearest multiple of `ulp` moves a value by at most
`ulp / 2`. -/
theorem roundNearestEven_err (q ulp : ℚ) (hulp : 0 < ulp) :
    |roundNearestEven q ulp - q| ≤ ulp / 2 := by
  have h0 : ((⌊q / ulp⌋ : ℚ)) ≤ q / ulp := Int.floor_le _
  have h1 : q / ulp < (⌊q / ulp⌋ : ℚ) + 1 := Int.lt_floor_add_one _
  have hq : q / ulp * ulp = q := div_mul_cancel₀ q (ne_of_gt hulp)
  unfold roundNearestEven
  by_cases hlt : q / ulp - (⌊q / ulp⌋ : ℚ) < 1 / 2
  · rw [if_pos hlt, abs_le]
    constructor <;> nlinarith
  · rw [if_neg hlt]
    by_cases hgt : 1 / 2 < q / ulp - (⌊q / ulp⌋ : ℚ)
    · rw [if_pos hgt, abs_le]
      constructor <;> nlinarith
    · rw [if_neg hgt]
      by_cases hev : ⌊q / ulp⌋ % 2 = 0
      · rw [if_pos hev, abs_le]
        constructor <;> nlinarith
      · rw [if_neg hev, abs_le]
        constructor <;> nlinarith

/-- `flRound` is the identity on values of the form `m * 2^k` with a
significand of fewer than `prec` bits. -/
theorem flRound_exact (prec : Nat) (m k : Int) (hm : |m| < 2 ^ prec) :
    flRound prec ((m : ℚ) * (2 : ℚ) ^ k) = (m : ℚ) * (2 : ℚ) ^ k := by
  rcases eq_or_ne m 0 with rfl | hm0
  · simp [flRound]
  · have h2k : (0 : ℚ) < (2 : ℚ) ^ k := zpow_pos (by norm_num) k
    have hmq : ((m : ℚ)) ≠ 0 := Int.cast_ne_zero.mpr hm0
    have hq0 : (m : ℚ) * (2 : ℚ) ^ k ≠ 0 := mul_ne_zero hmq (ne_of_gt h2k)
    have habs : |(m : ℚ) * (2 : ℚ) ^ k| = |(m : ℚ)| * (2 : ℚ) ^ k := by
      rw [abs_mul, abs_of_pos h2k]
    have hub : |(m : ℚ) * (2 : ℚ) ^ k| < (2 : ℚ) ^ (k + (prec : Int)) := by
      rw [habs, zpow_add₀ (by norm_num : (2 : ℚ) ≠ 0), mul_comm ((2:ℚ) ^ k)]
      have hmlt : |(m : ℚ)| < (2 : ℚ) ^ (prec : Int) := by
        rw [zpow_natCast]
        rw [← Int.cast_abs]
        exact_mod_cast hm
      exact mul_lt_mul_of_pos_right hmlt h2k
    have hlog : Int.log 2 |(m : ℚ) * (2 : ℚ) ^ k| < k + (prec : Int) :=
      (Int.lt_zpow_iff_log_lt (by norm_num) (abs_pos.mpr hq0)).mp hub
    set E : Int := Int.log 2 |(m : ℚ) * (2 : ℚ) ^ k| + 1 - (prec : Int) with hEdef
    have hd : 0 ≤ k - E := by omega
    unfold flRound
    rw [if_neg hq0]
    refine roundNearestEven_int _ _ (ne_of_gt (zpow_pos (by norm_num) _))
      (m * 2 ^ (k - E).toNat) ?_
    push_cast
    rw [← zpow_natCast (2 : ℚ) (k - E).toNat, Int.toNat_of_nonneg hd, mul_assoc,
      ← zpow_add₀ (by norm_num : (2 : ℚ) ≠ 0)]
    congr 2
    omega

/-- `flRound` is the identity on integers of fewer than `prec` bits. -/
theorem flRound_exact_int (prec : Nat) (m : Int) (hm : |m| < 2 ^ prec) :
    flRound prec (m : ℚ) = (m : ℚ) := by
  simpa using flRound_exact prec m 0 hm

/-- `flRound` is the identity on `m / 2^k` for a small significand `m`. -/
theorem flRound_exact_div_pow2 (prec : Nat) (m : Int) (k : Nat) (hm : |m| < 2 ^ prec) :
    flRound prec ((m : ℚ) / 2 ^ k) = (m : ℚ) / 2 ^ k := by
  have h : (m : ℚ) / 2 ^ k = (m : ℚ) * (2 : ℚ) ^ (-(k : Int)) := by
    rw [zpow_neg, zpow_natCast, div_eq_mul_inv]
  rw [h]
  exact flRound_exact prec m (-(k : Int)) hm

/-- Relative error of `flRound`: at most half an ulp, hence a `2^(1-prec)/2`
fraction of the value. -/
theorem flRound_err (prec : Nat) (q : ℚ) (hq : q ≠ 0) :
    |flRound prec q - q| ≤ |q| * (2 : ℚ) ^ (1 - (prec : Int)) / 2 := by
  unfold flRound
  rw [if_neg hq]
  have hulp : (0 : ℚ) < (2 : ℚ) ^ (Int.log 2 |q| + 1 - (prec : Int)) :=
    zpow_pos (by norm_num) _
  refine le_trans (roundNearestEven_err q _ hulp) ?_
  have hlb : (2 : ℚ) ^ (Int.log 2 |q|) ≤ |q| :=
    Int.zpow_log_le_self (by norm_num) (abs_pos.mpr hq)
  have hsplit : (2 : ℚ) ^ (Int.log 2 |q| + 1 - (prec : Int)) =
      (2 : ℚ) ^ (Int.log 2 |q|) * (2 : ℚ) ^ (1 - (prec : Int)) := by
    rw [← zpow_add₀ (by norm_num : (2 : ℚ) ≠ 0)]
    congr 1
    omega
  rw [hsplit]
  have h2 : (0 : ℚ) < (2 : ℚ) ^ (1 - (prec : Int)) := zpow_pos (by norm_num) _
  have := mul_le_mul_of_nonneg_right hlb (le_of_lt h2)
  linarith

/-- Double-precision rounding error. -/
theorem fl64_err (q : ℚ) (hq : q ≠ 0) : |fl64 q - q| ≤ |q| / 2 ^ 53 := by
  have h := flRound_err 53 q hq
  have hc : |q| * (2 : ℚ) ^ (1 - (53 : Int)) / 2 = |q| / 2 ^ 53 := by
    rw [show (1 - (53 : Int)) = -(52 : Int) by norm_num, zpow_neg]
    rw [show ((52 : Int)) = ((52 : Nat) : Int) by norm_num, zpow_natCast]
    norm_num
    ring
  rw [fl64, ← hc]
  exact h

/-- Single-precision rounding error. -/
theorem fl32_err (q : ℚ) (hq : q ≠ 0) : |fl32 q - q| ≤ |q| / 2 ^ 24 := by
  have h := flRound_err 24 q hq
  have hc : |q| * (2 : ℚ) ^ (1 - (24 : Int)) / 2 = |q| / 2 ^ 24 := by
    rw [show (1 - (24 : Int)) = -(23 : Int) by norm_num, zpow_neg]
    rw [show ((23 : Int)) = ((23 : Nat) : Int) by norm_num, zpow_natCast]
    norm_num
    ring
  rw [fl32, ← hc]
  exact h

/-- `flRound 53` fixes `32768 * sample` for in-range integer products and
similar small integers. -/
theorem fl64_intCast (x : Int) (h1 : -(2 ^ 53) < x) (h2 : x < 2 ^ 53) :
    fl64 (x : ℚ) = (x : ℚ) := by
  rw [fl64]
  exact flRound_exact_int 53 x (by rw [abs_lt]; omega)

/-- Clamp value 1 goes to 32767. -/
theorem float32ToInt16Sample_of_clamp_one (x : ℚ) (hcl : max (-1) (min 1 x) = 1) :
    float32ToInt16Sample x = 32767 := by
  simp only [float32ToInt16Sample, hcl]
  rw [if_neg (by norm_num : ¬ (1 : ℚ) < 0), one_mul]
  rw [show (0x7fff : ℚ) = ((32767 : Int) : ℚ) by norm_num]
  rw [fl64_intCast 32767 (by norm_num) (by norm_num)]
  exact toInt16_intCast 32767 (by norm_num) (by norm_num)

/-- Clamp value -1 goes to -32768. -/
theorem float32ToInt16Sample_of_clamp_negOne (x : ℚ) (hcl : max (-1) (min 1 x) = -1) :
    float32ToInt16Sample x = -32768 := by
  simp only [float32ToInt16Sample, hcl]
  rw [if_pos (by norm_num : (-1 : ℚ) < 0)]
  rw [show ((-1 : ℚ) * 0x8000) = ((-32768 : Int) : ℚ) by norm_num]
  rw [fl64_intCast (-32768) (by norm_num) (by norm_num)]
  exact toInt16_intCast (-32768) (by norm_num) (by norm_num)

/-- The conversion of a 0.0 sample. -/
theorem float32ToInt16Sample_zero : float32ToInt16Sample 0 = 0 := by
  have hcl : max (-1 : ℚ) (min 1 0) = 0 := by norm_num
  simp only [float32ToInt16Sample, hcl]
  rw [if_neg (by norm_num : ¬ (0 : ℚ) < 0), zero_mul]
  rw [show fl64 0 = ((0 : Int) : ℚ) by norm_num [fl64, flRound]]
  exact toInt16_intCast 0 (by norm_num) (by norm_num)

/-- The round trip through both conversions moves an int16 value by at
most one. -/
theorem roundTrip_close (x : Int) (hlo : -32768 ≤ x) (hhi : x ≤ 32767) :
    |float32ToInt16Sample (int16ToFloat32Sample x) - x| ≤ 1 := by
  rcases lt_trichotomy x 0 with hneg | rfl | hposx
  · -- negative values: every step is exact (powers of two)
    have hxabs24 : |x| < 2 ^ 24 := by rw [abs_lt]; omega
    have hxabs53 : |x| < 2 ^ 53 := by rw [abs_lt]; omega
    have h32768 : ((2 : ℚ) ^ (15 : Nat)) = 0x8000 := by norm_num
    have hq64 : fl64 ((x : ℚ) / 0x8000) = (x : ℚ) / 0x8000 := by
      rw [fl64, ← h32768]
      exact flRound_exact_div_pow2 53 x 15 hxabs53
    have hq32 : fl32 ((x : ℚ) / 0x8000) = (x : ℚ) / 0x8000 := by
      rw [fl32, ← h32768]
      exact flRound_exact_div_pow2 24 x 15 hxabs24
    have hit : int16ToFloat32Sample x = (x : ℚ) / 0x8000 := by
      unfold int16ToFloat32Sample
      rw [if_pos hneg, hq64, hq32]
    have hnegq : ((x : ℚ)) < 0 := by exact_mod_cast hneg
    have hxq : ((x : ℚ) / 0x8000) < 0 := div_neg_of_neg_of_pos hnegq (by norm_num)
    have hle1 : ((x : ℚ) / 0x8000) ≤ 1 := le_of_lt (lt_of_lt_of_le hxq (by norm_num))
    have hgem1 : (-1 : ℚ) ≤ ((x : ℚ) / 0x8000) := by
      rw [le_div_iff₀ (by norm_num : (0 : ℚ) < 0x8000)]
      have h : (-32768 : ℚ) ≤ (x : ℚ) := by exact_mod_cast hlo
      linarith
    have hcl : max (-1 : ℚ) (min 1 ((x : ℚ) / 0x8000)) = (x : ℚ) / 0x8000 := by
      rw [min_eq_right hle1, max_eq_right hgem1]
    have hcan : ((x : ℚ) / 0x8000) * 0x8000 = (x : ℚ) := div_mul_cancel₀ _ (by norm_num)
    rw [hit]
    simp only [float32ToInt16Sample, hcl, if_pos hxq, hcan]
    rw [fl64_intCast x (by omega) (by omega), toInt16_intCast x hlo hhi]
    simp
  · -- zero: exact
    have h0 : int16ToFloat32Sample 0 = 0 := by
      unfold int16ToFloat32Sample
      rw [if_neg (by omega : ¬ (0 : Int) < 0)]
      norm_num [fl64, fl32, flRound]
    rw [h0, float32ToInt16Sample_zero]
    simp
  · -- positive values
    have hxq_pos : (0 : ℚ) < (x : ℚ) := by exact_mod_cast hposx
    rcases eq_or_lt_of_le hhi with rfl | hlt
    · -- x = 32767: the quotient is exactly 1 and the trip is exact
      have hq : ((32767 : Int) : ℚ) / 0x7fff = 1 := by norm_num
      have hit : int16ToFloat32Sample 32767 = 1 := by
        unfold int16ToFloat32Sample
        rw [if_neg (by omega : ¬ (32767 : Int) < 0), hq]
        rw [show fl64 1 = ((1 : Int) : ℚ) by
          rw [show (1 : ℚ) = ((1 : Int) : ℚ) by norm_num]
          exact fl64_intCast 1 (by norm_num) (by norm_num)]
        rw [show fl32 ((1 : Int) : ℚ) = ((1 : Int) : ℚ) from
          flRound_exact_int 24 1 (by norm_num)]
        norm_num
      rw [hit]
      rw [float32ToInt16Sample_of_clamp_one 1 (by norm_num)]
      simp
    · -- 1 ≤ x ≤ 32766: error accounting
      have hx2 : x ≤ 32766 := by omega
      have hxq1 : (1 : ℚ) ≤ (x : ℚ) := by exact_mod_cast hposx
      have hxq2 : (x : ℚ) ≤ 32766 := by exact_mod_cast hx2
      set q : ℚ := (x : ℚ) / 0x7fff with hqdef
      have hq_pos : (0 : ℚ) < q := div_pos hxq_pos (by norm_num)
      have hqx : q * 0x7fff = (x : ℚ) := div_mul_cancel₀ _ (by norm_num)
      have hq_le : q ≤ 32766 / 32767 := by
        rw [hqdef, div_le_div_iff₀ (by norm_num) (by norm_num)]
        linarith
      have ha0 := fl64_err q (ne_of_gt hq_pos)
      rw [abs_of_pos hq_pos] at ha0
      set a : ℚ := fl64 q with hadef
      have ha := abs_le.mp ha0
      have hapos : 0 < a := by linarith [ha.1]
      have hb0 := fl32_err a (ne_of_gt hapos)
      rw [abs_of_pos hapos] at hb0
      set b : ℚ := fl32 a with hbdef
      have hb := abs_le.mp hb0
      have hbpos : 0 < b := by linarith [hb.1]
      have hble1 : b ≤ 1 := by linarith [hb.2, ha.2, hq_le, hq_pos, hapos]
      have hcl : max (-1 : ℚ) (min 1 b) = b := by
        rw [min_eq_right hble1, max_eq_right (by linarith : (-1 : ℚ) ≤ b)]
      have hit : int16ToFloat32Sample x = b := by
        unfold int16ToFloat32Sample
        rw [if_neg (by omega : ¬ x < 0), ← hqdef, ← hadef, ← hbdef]
      have hbq : |b - q| ≤ q / 2 ^ 23 := by
        rw [abs_le]
        constructor <;> linarith [hb.1, hb.2, ha.1, ha.2, hq_pos]
      have hpx : |b * 0x7fff - (x : ℚ)| ≤ (x : ℚ) / 2 ^ 23 := by
        have hdiff : b * 0x7fff - (x : ℚ) = (b - q) * 0x7fff := by
          rw [← hqx]; ring
        rw [hdiff, abs_mul, abs_of_pos (by norm_num : (0 : ℚ) < (0x7fff : ℚ))]
        calc |b - q| * 0x7fff ≤ (q / 2 ^ 23) * 0x7fff :=
              mul_le_mul_of_nonneg_right hbq (by norm_num)
          _ = (x : ℚ) / 2 ^ 23 := by rw [← hqx]; ring
      have hpx' := abs_le.mp hpx
      have hppos : 0 < b * 0x7fff := mul_pos hbpos (by norm_num)
      have hg0 := fl64_err (b * 0x7fff) (ne_of_gt hppos)
      rw [abs_of_pos hppos] at hg0
      set g : ℚ := fl64 (b * 0x7fff) with hgdef
      have hg := abs_le.mp hg0
      have hgx1 : (x : ℚ) - 1 / 2 ≤ g := by linarith [hpx'.1, hpx'.2, hg.1, hxq2]
      have hgx2 : g ≤ (x : ℚ) + 1 / 2 := by linarith [hpx'.2, hg.2, hxq2]
      have hgpos : 0 ≤ g := by linarith [hxq1]
      have hfl1 : x - 1 ≤ ⌊g⌋ := by
        apply Int.le_floor.mpr
        push_cast
        linarith
      have hfl2 : ⌊g⌋ ≤ x := by
        have h := Int.floor_lt.mpr (show g < ((x + 1 : Int) : ℚ) by push_cast; linarith)
        omega
      rw [hit]
      simp only [float32ToInt16Sample, hcl]
      rw [if_neg (not_lt.mpr (le_of_lt hbpos)), ← hgdef]
      unfold toInt16 jsTrunc
      rw [if_neg (not_lt.mpr hgpos)]
      rw [abs_le]
      constructor <;> omega

/-- C9: `float32ToInt16` maps 0 to 0, 1 to 32767 and -1 to -32768, clamps
out-of-range samples to the endpoints, and composing it with
`int16ToFloat32` (with IEEE-754 double rounding for each arithmetic step
and single rounding for the Float32Array store) returns every in-range
int16 value to within one unit. -/
theorem float32_int16_conversion_spec :
    float32ToInt16 [0] = [0] ∧
    float32ToInt16 [1] = [32767] ∧
    float32ToInt16 [-1] = [-32768] ∧
    (∀ x : ℚ, 1 < x → float32ToInt16Sample x = 32767) ∧
    (∀ x : ℚ, x < -1 → float32ToInt16Sample x = -32768) ∧
    (∀ x : Int, -32768 ≤ x → x ≤ 32767 →
      ∃ y, float32ToInt16 (int16ToFloat32 [x]) = [y] ∧ |y - x| ≤ 1) := by
  refine ⟨?_, ?_, ?_, ?_, ?_, ?_⟩
  · simp only [float32ToInt16, List.map]
    rw [float32ToInt16Sample_zero]
  · simp only [float32ToInt16, List.map]
    rw [float32ToInt16Sample_of_clamp_one 1 (by norm_num)]
  · simp only [float32ToInt16, List.map]
    rw [float32ToInt16Sample_of_clamp_negOne (-1) (by norm_num)]
  · intro x hx
    exact float32ToInt16Sample_of_clamp_one x (by
      rw [min_eq_left (le_of_lt hx), max_eq_right (by norm_num : (-1 : ℚ) ≤ 1)])
  · intro x hx
    exact float32ToInt16Sample_of_clamp_negOne x (by
      rw [min_eq_right (by linarith : x ≤ 1), max_eq_left (le_of_lt hx)])
  · intro x hlo hhi
    refine ⟨float32ToInt16Sample (int16ToFloat32Sample x), rfl, ?_⟩
    exact roundTrip_close x hlo hhi

/-- Witness: the clamp fires at 2, and the round trip of -5 stays within
one unit. -/
theorem float32_int16_conversion_spec_witness :
    float32ToInt16Sample 2 = 32767 ∧
    (∃ y, float32ToInt16 (int16ToFloat32 [-5]) = [y] ∧ |y - (-5 : Int)| ≤ 1) :=
  ⟨float32_int16_conversion_spec.2.2.2.1 2 (by decide),
   float32_int16_conversion_spec.2.2.2.2.2 (-5) (by decide) (by decide)⟩

/-- C8: `rewrite(text)` is total (never throws) and always returns usable
text: empty or whitespace-only input returns `polished=""`, `success=true`
with no network call; a missing API key passes the text through with
`success=true` and no network call; a non-ok response, an empty completion
content, and a transport-level exception each yield `success=false`,
`polished` equal to the original text, and a populated error message (the
status for a non-ok response, a fixed empty-result message, or the
exception's message verbatim). -/
theorem rewrite_contract (cfg : RewriteConfig) (text : String) :
    (∀ net, jsTrim text = "" →
      RewriteService.rewrite cfg text net =
        ({ original := text, polished := "", success := true }, false)) ∧
    (∀ net, jsTrim text ≠ "" → cfg.apiKey = "" →
      RewriteService.rewrite cfg text net =
        ({ original := text, polished := text, success := true }, false)) ∧
    (∀ status content, jsTrim text ≠ "" → cfg.apiKey ≠ "" →
      RewriteService.rewrite cfg text (NetOutcome.response false status content) =
        ({ original := text, polished := text, success := false,
           error := some ("API 请求失败: " ++ toString status) }, true)) ∧
    (∀ status content, jsTrim text ≠ "" → cfg.apiKey ≠ "" →
      content.map jsTrim = none ∨ content.map jsTrim = some "" →
      RewriteService.rewrite cfg text (NetOutcome.response true status content) =
        ({ original := text, polished := text, success := false,
           error := some ("API 返回空结果") }, true)) ∧
    (∀ msg, jsTrim text ≠ "" → cfg.apiKey ≠ "" →
      RewriteService.rewrite cfg text (NetOutcome.exn msg) =
        ({ original := text, polished := text, success := false,
           error := some msg }, true)) := by
  refine ⟨?_, ?_, ?_, ?_, ?_⟩
  · intro net h
    simp [RewriteService.rewrite, h]
  · intro net h hk
    cases net <;> simp [RewriteService.rewrite, h, hk]
  · intro status content h hk
    simp [RewriteService.rewrite, h, hk]
  · intro status content h hk hc
    rcases hc with hc | hc <;>
      simp [RewriteService.rewrite, h, hk, hc]
  · intro msg h hk
    simp [RewriteService.rewrite, h, hk]

/-- Witness for C8: concrete runs of the whitespace-input branch and of the
exception branch. -/
theorem rewrite_contract_witness :
    RewriteService.rewrite { apiUrl := "u", apiKey := "k", model := "m" } " " (NetOutcome.exn "boom") =
      ({ original := " ", polished := "", success := true }, false) ∧
    RewriteService.rewrite { apiUrl := "u", apiKey := "k", model := "m" } "hi" (NetOutcome.exn "boom") =
      ({ original := "hi", polished := "hi", success := false, error := some "boom" }, true) :=
  ⟨(rewrite_contract { apiUrl := "u", apiKey := "k", model := "m" } " ").1
      (NetOutcome.exn "boom") (by decide),
   (rewrite_contract { apiUrl := "u", apiKey := "k", model := "m" } "hi").2.2.2.2
      "boom" (by decide) (by decide)⟩

/-- C2 counterexample: on a recording state holding one partial result and a
final result, `cancelSession()` resets to idle but the partial/final result
buffers are still populated afterwards — they are not discarded, no code in
`cancelSession`/`cleanup` touches them. -/
theorem cancelSession_buffers_cex :
    (ASRManager.cancelSession sampleState).currentState = ASRState.idle ∧
    (ASRManager.cancelSession sampleState).partialResults = [sampleResult] ∧
    (ASRManager.cancelSession sampleState).finalResult = some sampleFinal ∧
    sampleState.partialResults ≠ [] := by decide

/-- C2 (amended): `cancelSession()` closes and discards the Protocol Client,
clears the session-start bookkeeping and leaves the manager Idle, but it
does NOT discard the accumulated partial results or the final-result
buffer; those buffers are discarded by the next `startSession()`. -/
theorem cancelSession_spec (st : MgrState) :
    ASRManager.cancelSession st =
      { st with currentState := ASRState.idle, client := none, sessionStartTime := none } ∧
    (∀ now, st.currentState = ASRState.idle →
      ((ASRManager.startSession st true now).1).partialResults = [] ∧
      ((ASRManager.startSession st true now).1).finalResult = none) := by
  constructor
  · rfl
  · intro now h
    simp [ASRManager.startSession, h]

/-- Witness for C2 (amended) at a concrete idle state with stale buffers. -/
theorem cancelSession_spec_witness :
    ((ASRManager.startSession idleState true 5).1).partialResults = [] ∧
    ((ASRManager.startSession idleState true 5).1).finalResult = none :=
  (cancelSession_spec idleState).2 5 (by decide)

/-- C6: `finish()` always stops the flush timer first; when not connected it
sends nothing and does not throw; when connected it sends exactly one
`ClientAudioOnly` packet with flags `NEG_SEQUENCE` whose (uncompressed)
audio payload is the concatenation of all queued chunks, the queue being
cleared — and when the queue is empty the last packet's audio payload is
empty. -/
theorem finish_spec :
    (∀ c, ASRClient.isConnected c = false →
      ASRClient.finish c = ({ c with sendIntervalActive := false }, [])) ∧
    (∀ c, ASRClient.isConnected c = true → c.wsPresent = true → c.audioBuffer ≠ [] →
      ASRClient.finish c =
        ({ c with sendIntervalActive := false, audioBuffer := [] },
         [{ messageType := MessageType.CLIENT_AUDIO_ONLY_REQUEST
            flags := Flags.NEG_SEQUENCE
            serialization := Serialization.NO_SERIALIZATION
            compression := Compression.GZIP
            audio := c.audioBuffer.flatten }])) ∧
    (∀ c, ASRClient.isConnected c = true → c.wsPresent = true → c.audioBuffer = [] →
      ASRClient.finish c =
        ({ c with sendIntervalActive := false },
         [{ messageType := MessageType.CLIENT_AUDIO_ONLY_REQUEST
            flags := Flags.NEG_SEQUENCE
            serialization := Serialization.NO_SERIALIZATION
            compression := Compression.GZIP
            audio := [] }])) := by
  refine ⟨?_, ?_, ?_⟩
  · intro c h
    simp only [ASRClient.finish, ASRClient.stopAudioSender]
    rw [if_pos]
    simpa [ASRClient.isConnected] using h
  · intro c hconn hws hne
    have hlen : c.audioBuffer.length > 0 := List.length_pos.mpr hne
    simp only [ASRClient.finish, ASRClient.stopAudioSender, ASRClient.mergeAudioBuffer,
      ASRClient.sendAudioPacket]
    rw [if_neg (by simpa [ASRClient.isConnected] using hconn)]
    rw [if_pos (by simpa using hlen)]
    rw [if_neg (by simp [hws, ASRClient.isConnected]
                   simpa [ASRClient.isConnected] using hconn)]
    simp
  · intro c hconn hws hemp
    simp only [ASRClient.finish, ASRClient.stopAudioSender, ASRClient.mergeAudioBuffer,
      ASRClient.sendAudioPacket]
    rw [if_neg (by simpa [ASRClient.isConnected] using hconn)]
    rw [if_neg (by simp [hemp])]
    rw [if_neg (by simp [hws, ASRClient.isConnected]
                   simpa [ASRClient.isConnected] using hconn)]
    simp

/-- Witness for C6: a concrete connected client with two queued chunks
flushes them as one last packet, and a concrete connected client with an
empty queue sends an empty last packet. -/
theorem finish_spec_witness :
    ASRClient.finish { connectionState := ConnectionState.connected, wsPresent := true,
                       audioBuffer := [[1, 2], [3]], sendIntervalActive := true } =
      ({ connectionState := ConnectionState.connected, wsPresent := true,
         audioBuffer := [], sendIntervalActive := false },
       [{ messageType := 2, flags := 2, serialization := 0, compression := 1,
          audio := [1, 2, 3] }]) ∧
    ASRClient.finish connectedClient =
      ({ connectedClient with sendIntervalActive := false },
       [{ messageType := 2, flags := 2, serialization := 0, compression := 1,
          audio := [] }]) :=
  ⟨finish_spec.2.1 _ (by decide) (by decide) (by decide),
   finish_spec.2.2 connectedClient (by decide) (by decide) (by decide)⟩

/-- The history update of `addToHistory` is exactly "cons, then keep the
first `maxHistorySize` entries". -/
theorem pushEntry_eq_take (m : Nat) (e : TranscriptionHistoryEntry)
    (h : List TranscriptionHistoryEntry) :
    pushEntry m e h = List.take m (e :: h) := by
  unfold pushEntry
  by_cases hl : (e :: h).length > m
  · simp [hl]
  · simp only [hl, if_false]
    exact (List.take_of_length_le (by omega)).symm

/-- Truncating an already-truncated right summand changes nothing. -/
theorem take_append_take {α : Type} (m : Nat) (l1 l2 : List α) :
    List.take m (l1 ++ List.take m l2) = List.take m (l1 ++ l2) := by
  rw [List.take_append_eq_append_take, List.take_append_eq_append_take, List.take_take]
  congr 1
  exact congrArg (fun k => List.take k l2) (Nat.min_eq_left (Nat.sub_le m l1.length))

/-- Folding session entries over a bounded history keeps the most recent
`m` of them, most recent first. -/
theorem foldl_pushEntry (m : Nat) (es : List TranscriptionHistoryEntry) :
    ∀ h, h.length ≤ m →
      es.foldl (fun acc e => pushEntry m e acc) h = List.take m (es.reverse ++ h) := by
  induction es with
  | nil =>
    intro h hl
    simp [List.take_of_length_le hl]
  | cons e es ih =>
    intro h hl
    simp only [List.foldl_cons]
    rw [ih (pushEntry m e h)
        (by rw [pushEntry_eq_take]
            simp only [List.length_take]
            exact Nat.min_le_left m (e :: h).length)]
    rw [pushEntry_eq_take, take_append_take]
    simp [List.append_assoc]

/-- The history component of `stopSession` either stays put, or gains one
entry at the front and is truncated to the capacity. -/
theorem stopSession_history_cases (st : MgrState) (uid : String) (now : Nat)
    (final : Nat → Option ASRResult) (partials : Nat → List ASRResult) :
    ((ASRManager.stopSession st uid now final partials).1).history = st.history ∨
    ∃ e, ((ASRManager.stopSession st uid now final partials).1).history =
      List.take st.config.maxHistorySize (e :: st.history) := by
  unfold ASRManager.stopSession
  cases hcl : st.client with
  | none => exact Or.inl rfl
  | some c =>
    dsimp only
    by_cases hg : st.currentState ≠ ASRState.recording ∧ st.currentState ≠ ASRState.ready
    · rw [if_pos hg]
      exact Or.inl rfl
    · rw [if_neg hg]
      cases hw : ASRManager.waitForFinalResult 5000 final partials with
      | error e => exact Or.inl rfl
      | ok result =>
        dsimp only
        by_cases hs : st.config.autoSaveHistory = true ∧ result.text ≠ ""
        · refine Or.inr ⟨sessionEntry st uid now result, ?_⟩
          rw [if_pos hs]
          show pushEntry st.config.maxHistorySize _ st.history = _
          rw [pushEntry_eq_take]
          rfl
        · rw [if_neg hs]
          exact Or.inl rfl

/-- C10 (implicit frame effect): `startSession`, `sendAudio` and
`cancelSession` leave the stored history entries untouched; `stopSession`
at most prepends one entry and truncates to the capacity (so previously
stored entries stay in order, with eviction only from the back); only
`clearHistory` empties the history. -/
theorem lifecycle_history_frame :
    (∀ st connectOk now, ((ASRManager.startSession st connectOk now).1).history = st.history) ∧
    (∀ st chunk, ((ASRManager.sendAudio st chunk).1).history = st.history) ∧
    (∀ st, (ASRManager.cancelSession st).history = st.history) ∧
    (∀ st uid now final partials,
      ((ASRManager.stopSession st uid now final partials).1).history = st.history ∨
      ∃ e, ((ASRManager.stopSession st uid now final partials).1).history =
        List.take st.config.maxHistorySize (e :: st.history)) ∧
    (∀ st, (ASRManager.clearHistory st).history = []) := by
  refine ⟨?_, ?_, fun st => rfl, stopSession_history_cases, fun st => rfl⟩
  · intro st connectOk now
    unfold ASRManager.startSession
    by_cases h : st.currentState ≠ ASRState.idle
    · rw [if_pos h]
    · rw [if_neg h]
      dsimp only
      by_cases hc : connectOk = true
      · rw [if_pos hc]
      · rw [if_neg hc]
  · intro st chunk
    unfold ASRManager.sendAudio
    cases hcl : st.client with
    | none => rfl
    | some c =>
      dsimp only
      by_cases h : st.currentState = ASRState.ready
      · rw [if_pos h]
        by_cases h2 : ({ st with currentState := ASRState.recording } : MgrState).currentState ≠ ASRState.recording
        · rw [if_pos h2]
        · rw [if_neg h2]
      · rw [if_neg h]
        by_cases h2 : st.currentState ≠ ASRState.recording
        · rw [if_pos h2]
        · rw [if_neg h2]

/-- C7: a history entry is appended (at the front) only by a successful
`stopSession()` with `autoSaveHistory` and non-empty result text; the
history update never leaves more than `maxHistorySize` entries; and after
`N` completed sessions with `N > maxHistorySize` the history is exactly the
`maxHistorySize` most recent entries in reverse-chronological order. -/
theorem history_bounding :
    (∀ st uid now final partials r,
      (ASRManager.stopSession st uid now final partials).2 = Except.ok r →
      (st.config.autoSaveHistory ∧ r.text ≠ "" →
        ((ASRManager.stopSession st uid now final partials).1).history =
          List.take st.config.maxHistorySize (sessionEntry st uid now r :: st.history)) ∧
      (¬ (st.config.autoSaveHistory ∧ r.text ≠ "") →
        ((ASRManager.stopSession st uid now final partials).1).history = st.history)) ∧
    (∀ m e h, (pushEntry m e h).length ≤ m) ∧
    (∀ m es, addedHistory m es = List.take m es.reverse) ∧
    (∀ m es, m < es.length → (addedHistory m es).length = m) := by
  have hadd : ∀ m es, addedHistory m es = List.take m es.reverse := by
    intro m es
    unfold addedHistory
    rw [foldl_pushEntry m es [] (by simp)]
    simp
  refine ⟨?_, ?_, hadd, ?_⟩
  · intro st uid now final partials r
    unfold ASRManager.stopSession
    cases hcl : st.client with
    | none => intro h; exact absurd h (by simp)
    | some c =>
      dsimp only
      by_cases hg : st.currentState ≠ ASRState.recording ∧ st.currentState ≠ ASRState.ready
      · rw [if_pos hg]
        intro h
        exact absurd h (by simp)
      · rw [if_neg hg]
        cases hw : ASRManager.waitForFinalResult 5000 final partials with
        | error e =>
          intro h
          exact absurd h (by simp)
        | ok result =>
          dsimp only
          intro h
          have hr : result = r := by simpa using h
          subst hr
          constructor
          · intro hs
            rw [if_pos (show st.config.autoSaveHistory = true ∧ result.text ≠ "" from hs)]
            show pushEntry st.config.maxHistorySize _ st.history = _
            rw [pushEntry_eq_take]
            rfl
          · intro hs
            rw [if_neg (show ¬ (st.config.autoSaveHistory = true ∧ result.text ≠ "") from hs)]
            rfl
  · intro m e h
    rw [pushEntry_eq_take]
    simp only [List.length_take]
    exact Nat.min_le_left m (e :: h).length
  · intro m es hlen
    rw [hadd]
    simp only [List.length_take, List.length_reverse]
    omega

/-- Witness for C7: the concrete successful stop on `sampleState` records
exactly one entry at the front, and three sessions against capacity 2 leave
exactly 2 entries. -/
theorem history_bounding_witness :
    ((ASRManager.stopSession sampleState "id1" 2000 (fun _ => some sampleFinal) (fun _ => [])).1).history =
      List.take 100 (sessionEntry sampleState "id1" 2000 sampleFinal :: sampleState.history) ∧
    (addedHistory 2 [entryA, entryB, entryC]).length = 2 :=
  ⟨(history_bounding.1 sampleState "id1" 2000 (fun _ => some sampleFinal) (fun _ => [])
      sampleFinal rfl).1 ⟨by decide, by decide⟩,
   history_bounding.2.2.2 2 [entryA, entryB, entryC] (by decide)⟩

/-- C4: state-validity guards.  `startSession()` fails with an
invalid-state error from every state other than Idle; `sendAudio()` fails
when no Protocol Client exists, transitions exactly Ready to Recording and
then forwards the chunk, forwards in Recording, and silently drops the
chunk (without throwing) in every other state; `stopSession()` fails with
an invalid-state error from every state other than Ready/Recording. -/
theorem session_state_guards :
    (∀ st connectOk now, st.currentState ≠ ASRState.idle →
      ASRManager.startSession st connectOk now =
        (st, Except.error (MgrError.invalidState ("无法开始会话：当前状态为 " ++ st.currentState.label)))) ∧
    (∀ st chunk, st.client = none →
      ASRManager.sendAudio st chunk =
        (st, SendAudioOutcome.errored (MgrError.invalidState ("会话未开始")))) ∧
    (∀ st c chunk, st.client = some c → st.currentState = ASRState.ready →
      ASRManager.sendAudio st chunk =
        ({ st with currentState := ASRState.recording, client := some (ASRClient.sendAudio c chunk) }, SendAudioOutcome.forwarded)) ∧
    (∀ st c chunk, st.client = some c → st.currentState = ASRState.recording →
      ASRManager.sendAudio st chunk =
        ({ st with client := some (ASRClient.sendAudio c chunk) }, SendAudioOutcome.forwarded)) ∧
    (∀ st c chunk, st.client = some c →
      st.currentState ≠ ASRState.ready → st.currentState ≠ ASRState.recording →
      ASRManager.sendAudio st chunk = (st, SendAudioOutcome.dropped)) ∧
    (∀ st uid now final partials,
      st.currentState ≠ ASRState.ready → st.currentState ≠ ASRState.recording →
      ∃ msg, ASRManager.stopSession st uid now final partials =
        (st, Except.error (MgrError.invalidState msg))) := by
  refine ⟨?_, ?_, ?_, ?_, ?_, ?_⟩
  · intro st connectOk now h
    unfold ASRManager.startSession
    rw [if_pos h]
  · intro st chunk h
    unfold ASRManager.sendAudio
    rw [h]
  · intro st c chunk hcl h
    unfold ASRManager.sendAudio
    rw [hcl]
    dsimp only
    rw [if_pos h, if_neg (by simp)]
  · intro st c chunk hcl h
    unfold ASRManager.sendAudio
    rw [hcl]
    dsimp only
    rw [if_neg (by simp [h]), if_neg (by simp [h])]
  · intro st c chunk hcl h1 h2
    unfold ASRManager.sendAudio
    rw [hcl]
    dsimp only
    rw [if_neg h1, if_pos h2]
  · intro st uid now final partials h1 h2
    unfold ASRManager.stopSession
    cases hcl : st.client with
    | none => exact ⟨"会话未开始", rfl⟩
    | some c =>
      dsimp only
      rw [if_pos ⟨h2, h1⟩]
      exact ⟨"无法停止会话：当前状态为 " ++ st.currentState.label, rfl⟩

/-- Witness for C4: concrete runs of the three guard failures. -/
theorem session_state_guards_witness :
    ASRManager.startSession sampleState true 0 =
      (sampleState, Except.error (MgrError.invalidState ("无法开始会话：当前状态为 " ++ sampleState.currentState.label))) ∧
    ASRManager.sendAudio idleState [1] =
      (idleState, SendAudioOutcome.errored (MgrError.invalidState ("会话未开始"))) ∧
    ∃ msg, ASRManager.stopSession idleState "u" 0 (fun _ => none) (fun _ => []) =
      (idleState, Except.error (MgrError.invalidState msg)) :=
  ⟨session_state_guards.1 sampleState true 0 (by decide),
   session_state_guards.2.1 idleState [1] (by decide),
   session_state_guards.2.2.2.2.2 idleState "u" 0 (fun _ => none) (fun _ => [])
     (by decide) (by decide)⟩

/-- Reading back a big-endian 32-bit encoding recovers the value mod 2^32,
whatever follows it. -/
theorem readUInt32BE_be32 (n : Nat) (rest : Bytes) :
    readUInt32BE (be32 n ++ rest) = some (n % 2 ^ 32) := by
  simp only [be32, List.cons_append, List.nil_append, readUInt32BE]
  congr 1
  omega

/-- Reading back a big-endian signed 32-bit encoding recovers an in-range
value, whatever follows it. -/
theorem readInt32BE_int32be (code : Int) (h1 : -(2 ^ 31) ≤ code) (h2 : code < 2 ^ 31)
    (rest : Bytes) :
    readInt32BE (int32be code ++ rest) = some code := by
  have hge := Int.emod_nonneg code (by norm_num : (2 ^ 32 : Int) ≠ 0)
  have hlt := Int.emod_lt_of_pos code (by norm_num : (0 : Int) < 2 ^ 32)
  have ht : ((code % 2 ^ 32).toNat : Int) = code % 2 ^ 32 := Int.toNat_of_nonneg hge
  have hn : (code % 2 ^ 32).toNat % 2 ^ 32 = (code % 2 ^ 32).toNat :=
    Nat.mod_eq_of_lt (by omega)
  unfold int32be readInt32BE
  rw [readUInt32BE_be32, hn]
  show some (if (code % 2 ^ 32).toNat < 2 ^ 31 then (((code % 2 ^ 32).toNat : Nat) : Int)
      else (((code % 2 ^ 32).toNat : Nat) : Int) - 2 ^ 32) = some code
  congr 1
  by_cases hc : (code % 2 ^ 32).toNat < 2 ^ 31
  · rw [if_pos hc, ht]
    omega
  · rw [if_neg hc, ht]
    omega

/-- C5: a ServerError frame carrying signed error code `code` and message
bytes (optionally gzip-compressed, decoding to `m`) produces exactly one
result-callback invocation, with empty text, `isPartial = true`, no
utterances, and an error string that contains both the decimal error code
and the decoded message text. -/
theorem serverError_callback (o : Oracles) (gz : Bool) (seq code : Int) (msg : Bytes)
    (m : String) (h1 : -(2 ^ 31) ≤ code) (h2 : code < 2 ^ 31)
    (hdec : (if gz then (o.gunzip msg).map o.decodeUtf8 else some (o.decodeUtf8 msg)) = some m) :
    ASRClient.handleResponse o (serverErrorFrame gz seq code msg) =
      Except.ok [{ text := "", isPartial := true, utterances := none,
                   error := some ("错误码 " ++ toString code ++ ": " ++ m) }] ∧
    (∃ a b, ("错误码 " ++ toString code ++ ": " ++ m) = a ++ toString code ++ b) ∧
    (∃ a b, ("错误码 " ++ toString code ++ ": " ++ m) = a ++ m ++ b) := by
  refine ⟨?_, ⟨"错误码 ", ": " ++ m, by simp [String.append_assoc]⟩,
    ⟨"错误码 " ++ toString code ++ ": ", "", by simp⟩⟩
  have hdrop4 : ∀ (i : Int) (l : Bytes), List.drop 4 (int32be i ++ l) = l := by
    intro i l
    simp [int32be, be32]
  have hdrop8 : ∀ (i : Int) (n : Nat) (l : Bytes),
      List.drop 8 (int32be i ++ (be32 n ++ l)) = l := by
    intro i n l
    simp [int32be, be32]
  cases gz with
  | false =>
    simp only [if_neg (by simp : ¬ (false = true))] at hdec
    unfold ASRClient.handleResponse serverErrorFrame
    simp only [MessageType.SERVER_ERROR_RESPONSE, Flags.POS_SEQUENCE,
      Serialization.NO_SERIALIZATION, Compression.NO_COMPRESSION, Compression.GZIP,
      MessageType.SERVER_FULL_RESPONSE, if_neg (by simp : ¬ (false = true))]
    rw [if_neg (by simp [List.length_append])]
    simp only [byteAt, List.getD, List.getElem?_cons_zero, List.getElem?_cons_succ,
      List.get?_cons_zero, List.get?_cons_succ]
    norm_num
    have hdrop12 : List.drop 12 (int32be seq ++ (int32be code ++ (be32 msg.length ++ msg))) = msg := by
      simp [int32be, be32]
    rw [hdrop4, readInt32BE_int32be code h1 h2, hdrop12,
      show o.decodeUtf8 msg = m from Option.some.inj hdec]
  | true =>
    rw [if_pos rfl] at hdec
    unfold ASRClient.handleResponse serverErrorFrame
    simp only [MessageType.SERVER_ERROR_RESPONSE, Flags.POS_SEQUENCE,
      Serialization.NO_SERIALIZATION, Compression.NO_COMPRESSION, Compression.GZIP,
      MessageType.SERVER_FULL_RESPONSE, if_pos rfl]
    rw [if_neg (by simp [List.length_append])]
    simp only [byteAt, List.getD, List.getElem?_cons_zero, List.getElem?_cons_succ,
      List.get?_cons_zero, List.get?_cons_succ]
    norm_num
    have hdrop12 : List.drop 12 (int32be seq ++ (int32be code ++ (be32 msg.length ++ msg))) = msg := by
      simp [int32be, be32]
    rw [hdrop4, readInt32BE_int32be code h1 h2, hdrop12]
    cases hg : o.gunzip msg with
    | none =>
      rw [hg] at hdec
      exact absurd hdec (by simp)
    | some plain =>
      rw [hg] at hdec
      have hm : o.decodeUtf8 plain = m := by simpa using hdec
      simp only [Option.map_some']
      rw [hm]

/-- Witness for C5: a concrete uncompressed error frame with code 45000000
and message "bad request" yields exactly one callback invocation. -/
theorem serverError_callback_witness :
    ASRClient.handleResponse errOracles (serverErrorFrame false 1 45000000 [98]) =
      Except.ok [{ text := "", isPartial := true, utterances := none,
                   error := some ("错误码 " ++ toString (45000000 : Int) ++ ": " ++ "bad request") }] :=
  (serverError_callback errOracles false 1 45000000 [98] "bad request"
    (by decide) (by decide) (by decide)).1

/-- C3 counterexample: a ServerFullResponse frame whose JSON carries empty
text and an EMPTY utterance list still invokes the result callback once —
in `text || utterances` the mapped array is truthy in JavaScript even when
empty — refuting the claim that a response with neither non-empty text nor
a non-empty utterance list produces no callback invocation. -/
theorem emptyUtterance_callback_cex :
    ASRClient.handleResponse emptyUttOracles (serverFullFrame false false 1 [123]) =
      Except.ok [{ text := "", isPartial := true, utterances := some [], error := none }] ∧
    extractText { text := none, payloadMsgResultText := none, utterances := some [] } = "" :=
  ⟨rfl, rfl⟩

/-- C3 (amended): for every decoded ServerFullResponse frame — compressed
(gzip) or not — the result callback is invoked (exactly once) precisely
when the parsed result object is present and the extracted text is
non-empty OR the `utterances` field is present — even as an empty list; and
a frame whose payload length is zero produces no callback invocation. -/
theorem fullResponse_callback_filter (o : Oracles) (gzipped isLast : Bool) (seq : Int)
    (body plain : Bytes) (j : JsonData) (hb : body ≠ [])
    (hgz : (if gzipped then Oracles.gunzip o body else some body) = some plain)
    (hp : Oracles.parseJson o plain = some j) :
    ASRClient.handleResponse o (serverFullFrame gzipped isLast seq body) =
      Except.ok (match j.payloadMsgResult.orElse (fun _ => j.result) with
        | none => []
        | some r =>
          if extractText r ≠ "" ∨ (InnerResult.utterances r).isSome then
            [{ text := extractText r, isPartial := !isLast,
               utterances := (InnerResult.utterances r).map (List.map mapUtterance),
               error := none }]
          else []) ∧
    (∀ gzipped isLast2 seq2,
      ASRClient.handleResponse o (serverFullFrame gzipped isLast2 seq2 []) = Except.ok []) := by
  have hdrop4 : ∀ (i : Int) (l : Bytes), List.drop 4 (int32be i ++ l) = l := by
    intro i l
    simp [int32be, be32]
  have hdrop8 : ∀ (i : Int) (n : Nat) (l : Bytes),
      List.drop 8 (int32be i ++ (be32 n ++ l)) = l := by
    intro i n l
    simp [int32be, be32]
  have hlen0 : body.length ≠ 0 := by
    intro h
    exact hb (List.length_eq_zero.mp h)
  constructor
  · cases gzipped with
    | false =>
      have hpb : Oracles.parseJson o body = some j := by
        simp at hgz
        rw [hgz]
        exact hp
      cases isLast with
      | false =>
        unfold ASRClient.handleResponse serverFullFrame
        simp only [MessageType.SERVER_ERROR_RESPONSE, Flags.POS_SEQUENCE, Flags.NEG_WITH_SEQUENCE,
          Serialization.JSON, Compression.NO_COMPRESSION, Compression.GZIP,
          MessageType.SERVER_FULL_RESPONSE]
        rw [if_neg (by simp [List.length_append])]
        simp only [byteAt, List.getD, List.getElem?_cons_zero, List.getElem?_cons_succ,
          List.get?_cons_zero, List.get?_cons_succ]
        norm_num
        rw [hdrop4, readUInt32BE_be32, hdrop8, hpb]
        rw [if_neg (by simp [int32be, be32]; omega)]
        dsimp only
        cases hr : j.payloadMsgResult.orElse (fun _ => j.result) with
        | none => rfl
        | some r =>
          dsimp only
          by_cases hc : extractText r ≠ "" ∨ (InnerResult.utterances r).isSome
          · rw [if_pos hc, if_pos hc]
          · rw [if_neg hc, if_neg hc]
      | true =>
        unfold ASRClient.handleResponse serverFullFrame
        simp only [MessageType.SERVER_ERROR_RESPONSE, Flags.POS_SEQUENCE, Flags.NEG_WITH_SEQUENCE,
          Serialization.JSON, Compression.NO_COMPRESSION, Compression.GZIP,
          MessageType.SERVER_FULL_RESPONSE]
        rw [if_neg (by simp [List.length_append])]
        simp only [byteAt, List.getD, List.getElem?_cons_zero, List.getElem?_cons_succ,
          List.get?_cons_zero, List.get?_cons_succ]
        norm_num
        rw [hdrop4, readUInt32BE_be32, hdrop8, hpb]
        rw [if_neg (by simp [int32be, be32]; omega)]
        dsimp only
        cases hr : j.payloadMsgResult.orElse (fun _ => j.result) with
        | none => rfl
        | some r =>
          dsimp only
          by_cases hc : extractText r ≠ "" ∨ (InnerResult.utterances r).isSome
          · rw [if_pos hc, if_pos hc]
          · rw [if_neg hc, if_neg hc]
    | true =>
      simp at hgz
      cases isLast with
      | false =>
        unfold ASRClient.handleResponse serverFullFrame
        simp only [MessageType.SERVER_ERROR_RESPONSE, Flags.POS_SEQUENCE, Flags.NEG_WITH_SEQUENCE,
          Serialization.JSON, Compression.NO_COMPRESSION, Compression.GZIP,
          MessageType.SERVER_FULL_RESPONSE]
        rw [if_neg (by simp [List.length_append])]
        simp only [byteAt, List.getD, List.getElem?_cons_zero, List.getElem?_cons_succ,
          List.get?_cons_zero, List.get?_cons_succ]
        norm_num
        rw [hdrop4, readUInt32BE_be32, hdrop8, hgz]
        rw [if_neg (by simp [int32be, be32]; omega)]
        dsimp only
        rw [hp]
        dsimp only
        cases hr : j.payloadMsgResult.orElse (fun _ => j.result) with
        | none => rfl
        | some r =>
          dsimp only
          by_cases hc : extractText r ≠ "" ∨ (InnerResult.utterances r).isSome
          · rw [if_pos hc, if_pos hc]
          · rw [if_neg hc, if_neg hc]
      | true =>
        unfold ASRClient.handleResponse serverFullFrame
        simp only [MessageType.SERVER_ERROR_RESPONSE, Flags.POS_SEQUENCE, Flags.NEG_WITH_SEQUENCE,
          Serialization.JSON, Compression.NO_COMPRESSION, Compression.GZIP,
          MessageType.SERVER_FULL_RESPONSE]
        rw [if_neg (by simp [List.length_append])]
        simp only [byteAt, List.getD, List.getElem?_cons_zero, List.getElem?_cons_succ,
          List.get?_cons_zero, List.get?_cons_succ]
        norm_num
        rw [hdrop4, readUInt32BE_be32, hdrop8, hgz]
        rw [if_neg (by simp [int32be, be32]; omega)]
        dsimp only
        rw [hp]
        dsimp only
        cases hr : j.payloadMsgResult.orElse (fun _ => j.result) with
        | none => rfl
        | some r =>
          dsimp only
          by_cases hc : extractText r ≠ "" ∨ (InnerResult.utterances r).isSome
          · rw [if_pos hc, if_pos hc]
          · rw [if_neg hc, if_neg hc]
  · intro gzipped isLast2 seq2
    cases gzipped <;> cases isLast2 <;>
      · unfold ASRClient.handleResponse serverFullFrame
        simp only [MessageType.SERVER_ERROR_RESPONSE, Flags.POS_SEQUENCE, Flags.NEG_WITH_SEQUENCE,
          Serialization.JSON, Compression.NO_COMPRESSION, Compression.GZIP,
          MessageType.SERVER_FULL_RESPONSE]
        rw [if_neg (by simp [List.length_append])]
        simp only [byteAt, List.getD, List.getElem?_cons_zero, List.getElem?_cons_succ,
          List.get?_cons_zero, List.get?_cons_succ]
        norm_num
        rw [hdrop4]
        simp [int32be, be32, readUInt32BE]

/-- Witness for C3 (amended): a concrete gzip-compressed frame with the
last-packet flag set fires the callback with `isPartial = false`, and a
concrete empty-payload frame produces no invocation. -/
theorem fullResponse_callback_filter_witness :
    ASRClient.handleResponse emptyUttGzOracles (serverFullFrame true true 1 [7]) =
      Except.ok [{ text := "", isPartial := false, utterances := some [], error := none }] ∧
    ASRClient.handleResponse emptyUttGzOracles (serverFullFrame false true 2 []) = Except.ok [] :=
  ⟨(fullResponse_callback_filter emptyUttGzOracles true true 1 [7] [123] emptyUttJson
      (by decide) rfl rfl).1,
   (fullResponse_callback_filter emptyUttGzOracles true true 1 [7] [123] emptyUttJson
      (by decide) rfl rfl).2 false true 2⟩

/-- When no final result arrives through tick `N` — the first poll at which
the elapsed time exceeds the budget — the polling loop returns the promoted
last partial result from tick `N` when one exists, and the timeout error
otherwise. -/
theorem waitFrom_timeout (timeoutMs : Nat) (final : Nat → Option ASRResult)
    (partials : Nat → List ASRResult) (N : Nat)
    (hN : 100 * N > timeoutMs) (hNmin : ∀ k, k < N → 100 * k ≤ timeoutMs) :
    ∀ fuel n, n ≤ N → N < n + fuel → (∀ k, n ≤ k → k ≤ N → final k = none) →
      waitFrom timeoutMs final partials fuel n =
        (match (partials N).getLast? with
         | some lastPartial => Except.ok { lastPartial with isPartial := false }
         | none => Except.error (MgrError.timeout ("等待最终结果超时"))) := by
  intro fuel
  induction fuel with
  | zero =>
    intro n h1 h2 _
    omega
  | succ fuel ih =>
    intro n h1 h2 hf
    rw [waitFrom, hf n (le_refl n) h1]
    by_cases hto : 100 * n > timeoutMs
    · have hnN : n = N := by
        rcases Nat.lt_or_ge n N with h | h
        · exact absurd (hNmin n h) (by omega)
        · omega
      subst hnN
      rw [if_pos hto]
    · rw [if_neg hto]
      have hnN : n < N := by
        rcases Nat.lt_or_ge n N with h | h
        · exact h
        · omega
      exact ih (n + 1) (by omega) (by omega) (fun k hk1 hk2 => hf k (by omega) hk2)

/-- C1: from Ready or Recording, when `finish()` has been invoked by
`stopSession()` and no final result arrives at any of the polls within the
5000ms budget (one check per 100ms tick; tick 51 is the first past the
budget), `stopSession()` returns the most recent partial result with
`isPartial` forced to `false` when at least one partial was recorded — it
does not throw — and fails with the timeout error when no partial was ever
recorded. -/
theorem stopSession_timeout_degrade (st : MgrState) (uid : String) (now : Nat)
    (final : Nat → Option ASRResult) (partials : Nat → List ASRResult)
    (hcl : st.client.isSome)
    (hst : st.currentState = ASRState.ready ∨ st.currentState = ASRState.recording)
    (hf : ∀ k, k ≤ 51 → final k = none) :
    (∀ p ps, partials 51 = ps ++ [p] →
      (ASRManager.stopSession st uid now final partials).2 =
        Except.ok { p with isPartial := false }) ∧
    (partials 51 = [] →
      (ASRManager.stopSession st uid now final partials).2 =
        Except.error (MgrError.timeout ("等待最终结果超时"))) := by
  obtain ⟨c, hc⟩ := Option.isSome_iff_exists.mp hcl
  have hg : ¬ (st.currentState ≠ ASRState.recording ∧ st.currentState ≠ ASRState.ready) := by
    rcases hst with h | h <;> simp [h]
  have hwait : ASRManager.waitForFinalResult 5000 final partials =
      (match (partials 51).getLast? with
       | some lastPartial => Except.ok { lastPartial with isPartial := false }
       | none => Except.error (MgrError.timeout ("等待最终结果超时"))) := by
    unfold ASRManager.waitForFinalResult
    exact waitFrom_timeout 5000 final partials 51 (by omega) (fun k hk => by omega)
      (5000 / 100 + 2) 0 (by omega) (by omega) (fun k _ hk2 => hf k hk2)
  constructor
  · intro p ps hps
    have hlast : (partials 51).getLast? = some p := by
      rw [hps, List.getLast?_concat]
    unfold ASRManager.stopSession
    rw [hc]
    dsimp only
    rw [if_neg hg, hwait, hlast]
  · intro hps
    have hlast : (partials 51).getLast? = none := by
      rw [hps]
      rfl
    unfold ASRManager.stopSession
    rw [hc]
    dsimp only
    rw [if_neg hg, hwait, hlast]

/-- Witness for C1: a concrete recording session where no final result ever
arrives returns the promoted partial when one exists and times out when
none does. -/
theorem stopSession_timeout_degrade_witness :
    (ASRManager.stopSession sampleState "u" 0 (fun _ => none) (fun _ => [sampleResult])).2 =
      Except.ok { sampleResult with isPartial := false } ∧
    (ASRManager.stopSession sampleState "u" 0 (fun _ => none) (fun _ => [])).2 =
      Except.error (MgrError.timeout ("等待最终结果超时")) :=
  ⟨(stopSession_timeout_degrade sampleState "u" 0 (fun _ => none) (fun _ => [sampleResult])
      (by decide) (Or.inr rfl) (fun _ _ => rfl)).1 sampleResult [] rfl,
   (stopSession_timeout_degrade sampleState "u" 0 (fun _ => none) (fun _ => [])
      (by decide) (Or.inr rfl) (fun _ _ => rfl)).2 rfl⟩

end Voice
